import Mathlib

/-!
Shallow embedding of the Seymour-decomposition core of the repository
(`seymour_decomposition.pyx`, `matrix_cmr_sparse.pyx`, `palp_normal_form.pyx`)
and proofs settling the specification claims against it.

Python labels (row/column identifiers) are modelled as integers; Python
exceptions are modelled by an explicit error type carried in `Except`.
-/

deriving instance DecidableEq for Except

namespace SageCMR

/-- Python exceptions raised by the embedded code.  The message payloads of the
source exceptions are dropped; only the exception kind is observable here. -/
inductive PyErr where
  | valueError
  | overflowError
  | runtimeError
  | notImplementedError
  | indexError
deriving DecidableEq, Repr

/-! ### Element keys (`ElementKey` in `seymour_decomposition.pyx`)

A Python `ElementKey` stores `self._key`, a `frozenset` which contains either
a single bare label (simple key) or two `(sign, label)` pairs (composed key),
plus the `_composition` flag used only for `__repr__`. -/

/-- One member of the `frozenset` stored in `ElementKey._key`: either a bare
label (simple key) or a `(sign, label)` pair (composed key). -/
inductive KeyAtom where
  | plain (label : Int)
  | signed (sign : Int) (label : Int)
deriving DecidableEq, Repr

/-- Embedding of the `ElementKey` extension type: the `frozenset` field `_key`
and the `_composition` display flag. -/
structure ElementKey where
  key : Finset KeyAtom
  composition : Bool
deriving DecidableEq

/-- `ElementKey.__init__` with `composition=False`: `_key = frozenset((keys,))`. -/
def ElementKey.mkSimple (label : Int) : ElementKey :=
  ⟨{KeyAtom.plain label}, false⟩

/-- `ElementKey.__init__` with `composition=True` on `(sign1, key1, sign2, key2)`:
`_key = frozenset([(sign1, key1), (sign2, key2)])`. -/
def ElementKey.mkComposed (sign1 label1 sign2 label2 : Int) : ElementKey :=
  ⟨{KeyAtom.signed sign1 label1, KeyAtom.signed sign2 label2}, true⟩

/-- `ElementKey.__eq__`: two keys are equal iff their `_key` frozensets are
equal (the `_composition` flag is not compared). -/
def ekEq (a b : ElementKey) : Bool :=
  a.key = b.key

/-- `ElementKey.__hash__` is `hash(self._key)`, a pure function of the
frozenset; it is modelled by the frozenset itself, so two keys have the same
modelled hash iff Python computes their hashes from equal frozensets. -/
def ekHash (a : ElementKey) : Finset KeyAtom :=
  a.key

/-- The set of underlying labels of a key, forgetting the signs: what the
spec calls the "underlying unordered label set". -/
def ekLabelSet (a : ElementKey) : Finset Int :=
  a.key.image (fun atom => match atom with
    | KeyAtom.plain l => l
    | KeyAtom.signed _ l => l)

/-- Equality of two optional tuples of keys, as Python `!=` evaluates it on
the `_row_keys` / `_column_keys` attributes: `None` equals only `None`, and
tuples compare elementwise via `ElementKey.__eq__`. -/
def ekListEq (a b : List ElementKey) : Bool :=
  a.length = b.length && (List.zip a b).all fun p => ekEq p.1 p.2

def ekOptListEq (a b : Option (List ElementKey)) : Bool :=
  match a, b with
  | none, none => true
  | some x, some y => ekListEq x y
  | _, _ => false

/-! ### Sparse CMR matrices (`CMR_CHRMAT`)

The external library's `CMR_CHRMAT` is a row-major sparse format:
`rowSlice[r] .. rowSlice[r+1]` delimit the entries of row `r` inside the flat
arrays `entryColumns` / `entryValues`. -/

/-- Embedding of a `CMR_CHRMAT` sparse matrix. -/
structure ChrMat where
  numRows : Nat
  numColumns : Nat
  rowSlice : List Nat
  entryColumns : List Nat
  entryValues : List Int
deriving DecidableEq, Repr

/-- Modelled from the spec: `CMRchrmatFindEntry` (external CMR library, not
under `src/`) looks up entry `(r, c)` by searching the slice of row `r` and
yields the flat index into `entryColumns`/`entryValues`, or the sentinel
`SIZE_MAX` when the entry is structurally absent.  The sentinel is modelled
by `none`. -/
def findEntryIdx (m : ChrMat) (r c : Nat) : Option Nat :=
  let lo := m.rowSlice.getD r 0
  let hi := m.rowSlice.getD (r + 1) 0
  (List.range m.entryColumns.length).find? fun i =>
    lo ≤ i && i < hi && m.entryColumns.getD i 0 = c

/-- Reading `mat.entryValues[index]` after a successful `CMRchrmatFindEntry`,
with the `index == SIZE_MAX ? 0 : ...` pattern used throughout the source. -/
def entryOrZero (m : ChrMat) (idx : Option Nat) : Int :=
  match idx with
  | none => 0
  | some i => m.entryValues.getD i 0

/-! ### CMR elements and decomposition handles

`CMR_ELEMENT` encodes a row index, a column index, or the invalid value `0`.
A `CMR_MATROID_DEC` handle exposes dimensions, a type tag, an optional
materialized matrix, the parent-row/parent-column element arrays (a nullable
pointer in C), the distributed/concentrated-rank discriminator of 3-sums,
and the list of child handles. -/

inductive CMRElem where
  | rowElem (i : Nat)
  | colElem (i : Nat)
  | invalid
deriving DecidableEq, Repr

/-- `CMRelementToRowIndex`; on a non-row element the C macro would produce a
meaningless number, modelled as `0`. -/
def elemToRowIndex : CMRElem → Nat
  | .rowElem i => i
  | _ => 0

/-- `CMRelementToColumnIndex`; on a non-column element the C macro would
produce a meaningless number, modelled as `0`. -/
def elemToColIndex : CMRElem → Nat
  | .colElem i => i
  | _ => 0

/-- Embedding of a `CMR_MATROID_DEC` handle tree.  `parentRows`/`parentCols`
are `none` when the C pointer is `NULL`. -/
inductive Dec where
  | mk (numRows numColumns : Nat) (typ : Int) (mat : Option ChrMat)
       (parentRows parentCols : Option (List CMRElem))
       (concentratedRank : Bool) (children : List Dec)

def Dec.numRows : Dec → Nat
  | .mk r _ _ _ _ _ _ _ => r

def Dec.numColumns : Dec → Nat
  | .mk _ c _ _ _ _ _ _ => c

def Dec.typ : Dec → Int
  | .mk _ _ t _ _ _ _ _ => t

def Dec.mat : Dec → Option ChrMat
  | .mk _ _ _ m _ _ _ _ => m

def Dec.parentRows : Dec → Option (List CMRElem)
  | .mk _ _ _ _ pr _ _ _ => pr

def Dec.parentCols : Dec → Option (List CMRElem)
  | .mk _ _ _ _ _ pc _ _ => pc

def Dec.concentratedRank : Dec → Bool
  | .mk _ _ _ _ _ _ cr _ => cr

def Dec.children : Dec → List Dec
  | .mk _ _ _ _ _ _ _ cs => cs

/-- A wrapped `DecompositionNode`: the handle, the optional row/column key
tuples, the Python object identity `id`, and `_root` (`none` for an owning
root node).  The key objects held by the node under scrutiny are modelled as
atomic labels (integers); a child's keys are `ElementKey` objects built from
them, exactly as `_CMRelement_to_key` wraps `self.row_keys()[i]`. -/
structure NodeState where
  dec : Dec
  rowKeys : Option (List Int)
  colKeys : Option (List Int)
  id : Nat
  root : Option Nat

/-- A node produced by child enumeration: keys are `ElementKey` objects and
`_root` is always set to the parent's `self._root or self`. -/
structure ChildNode where
  dec : Dec
  rowKeys : Option (List ElementKey)
  colKeys : Option (List ElementKey)
  root : Option Nat

/-- Python list indexing `l[i]` for a natural index: raises `IndexError`
when out of range. -/
def pyGet (l : List α) (i : Nat) : Except PyErr α :=
  match l.get? i with
  | some a => pure a
  | none => throw PyErr.indexError

/-- Mapping a fallible function over a list, failing on the first raised
exception (the effect of a Python generator expression inside `tuple(...)`).
This is `List.mapM` for `Except`, written by structural recursion. -/
def exceptMapList (f : α → Except PyErr β) : List α → Except PyErr (List β)
  | [] => pure []
  | a :: l => do
    let b ← f a
    let bs ← exceptMapList f l
    pure (b :: bs)

/-- `DecompositionNode._CMRelement_to_key`: raise on an invalid element,
raise when either key tuple is missing, else wrap the label found at the
element's index into a (simple) `ElementKey`. -/
def _CMRelement_to_key (rowKeys colKeys : Option (List Int)) (e : CMRElem) :
    Except PyErr ElementKey :=
  match e with
  | .invalid => throw PyErr.valueError
  | _ =>
    match rowKeys, colKeys with
    | some rk, some ck =>
      match e with
      | .rowElem i => ElementKey.mkSimple <$> pyGet rk i
      | .colElem i => ElementKey.mkSimple <$> pyGet ck i
      | .invalid => throw PyErr.valueError
    | _, _ => throw PyErr.valueError

/-- `DecompositionNode._create_child_node`: wrap child handle `childDec`,
deriving the child's keys from the parent array elements when both of the
parent's key tuples are present.  The source reads the child's
`parentRows`/`parentCols` pointers without a `NULL` test; a `NULL` array is
modelled as reading invalid elements. -/
def _create_child_node (self : NodeState) (childDec : Dec) :
    Except PyErr ChildNode := do
  match self.rowKeys, self.colKeys with
  | some _, some _ =>
    let prs := childDec.parentRows.getD []
    let pcs := childDec.parentCols.getD []
    let crk ← exceptMapList
      (fun i => _CMRelement_to_key self.rowKeys self.colKeys (prs.getD i CMRElem.invalid))
      (List.range childDec.numRows)
    let cck ← exceptMapList
      (fun i => _CMRelement_to_key self.rowKeys self.colKeys (pcs.getD i CMRElem.invalid))
      (List.range childDec.numColumns)
    pure ⟨childDec, some crk, some cck, some (self.root.getD self.id)⟩
  | _, _ => pure ⟨childDec, none, none, some (self.root.getD self.id)⟩

/-- `DecompositionNode._children` (current source): the children are wrapped
in child-handle index order — `tuple(self._create_child_node(index) for
index in range(self.nchildren()))` — with no sorting step. -/
def _children (self : NodeState) : Except PyErr (List ChildNode) :=
  exceptMapList (_create_child_node self) self.dec.children

/-- The result of `parent_rows_and_columns` on one side: either the node's
key tuple (when keys are set) or the tuple of parent indices. -/
inductive ParentTuple where
  | fromKeys (ks : List ElementKey)
  | fromIndices (idxs : List Nat)
deriving DecidableEq

/-- `DecompositionNode.parent_rows_and_columns` for a wrapped child node:
each side is `None` when the parent array is `NULL` or all-invalid, else the
key tuple when keys are present, else the tuple of parent indices. -/
def parent_rows_and_columns (n : ChildNode) :
    Option ParentTuple × Option ParentTuple :=
  let rows :=
    match n.dec.parentRows with
    | none => none
    | some prs =>
      if (List.range n.dec.numRows).all
          (fun i => prs.getD i CMRElem.invalid = CMRElem.invalid) then none
      else match n.rowKeys with
        | some ks => some (ParentTuple.fromKeys ks)
        | none => some (ParentTuple.fromIndices
            ((List.range n.dec.numRows).map
              (fun i => elemToRowIndex (prs.getD i CMRElem.invalid))))
  let cols :=
    match n.dec.parentCols with
    | none => none
    | some pcs =>
      if (List.range n.dec.numColumns).all
          (fun i => pcs.getD i CMRElem.invalid = CMRElem.invalid) then none
      else match n.colKeys with
        | some ks => some (ParentTuple.fromKeys ks)
        | none => some (ParentTuple.fromIndices
            ((List.range n.dec.numColumns).map
              (fun i => elemToColIndex (pcs.getD i CMRElem.invalid))))
  (rows, cols)

/-- `DecompositionNode.matrix`: `None` when the handle holds no materialized
matrix (`CMRmatroiddecGetMatrix` returns `NULL`); otherwise the sparse
matrix is returned with `result._root = self._root or self`, tying its
lifetime to the tree's root. -/
def nodeMatrix (self : NodeState) : Option (ChrMat × Nat) :=
  match self.dec.mat with
  | none => none
  | some m => some (m, self.root.getD self.id)

/-! ### Key assignment (`_set_row_keys` / `_set_column_keys`)

These take the currently stored optional key tuple, the supplied optional
key tuple, and the node's row (resp. column) count, and either raise
`ValueError` or return the new stored value.  Key objects compare via
`ElementKey.__eq__`; a bare label is a simple key. -/

def _set_row_keys (cur new : Option (List ElementKey)) (nrows : Nat) :
    Except PyErr (Option (List ElementKey)) :=
  if cur.isSome && !ekOptListEq cur new then
    Except.error PyErr.valueError
  else if new.isSome && decide ((new.getD []).length ≠ nrows) then
    Except.error PyErr.valueError
  else Except.ok new

def _set_column_keys (cur new : Option (List ElementKey)) (ncols : Nat) :
    Except PyErr (Option (List ElementKey)) :=
  if cur.isSome && !ekOptListEq cur new then
    Except.error PyErr.valueError
  else if new.isSome && decide ((new.getD []).length ≠ ncols) then
    Except.error PyErr.valueError
  else Except.ok new

/-! ### `ThreeSumNode._children`

The source loads both child handles, their parent arrays and their own
matrices `mat1`/`mat2`, then derives the children's key tuples.  Note that in
both branches for child 2 the source searches `mat2` for the entry position
but then reads the value from `mat1.entryValues`. -/

def emptyChrMat : ChrMat := ⟨0, 0, [], [], []⟩

/-- `ThreeSumNode._children`.  `CMRmatroiddecGetMatrix` returning `NULL` is
unchecked in the source (the C code would then dereference a null pointer);
it is modelled by an empty matrix, and the theorems below assume the
matrices are present. -/
def ThreeSum_children (self : NodeState) : Except PyErr (ChildNode × ChildNode) := do
  match self.dec.children with
  | [child1_dec, child2_dec] =>
    let parent_rows1 := child1_dec.parentRows.getD []
    let parent_columns1 := child1_dec.parentCols.getD []
    let mat1 := child1_dec.mat.getD emptyChrMat
    let parent_rows2 := child2_dec.parentRows.getD []
    let parent_columns2 := child2_dec.parentCols.getD []
    let mat2 := child2_dec.mat.getD emptyChrMat
    let childRoot := some (self.root.getD self.id)
    match self.rowKeys, self.colKeys with
    | some row_keys, some column_keys =>
      let child1_nrows := child1_dec.numRows
      let child1_ncols := child1_dec.numColumns
      let child2_nrows := child2_dec.numRows
      let child2_ncols := child2_dec.numColumns
      if self.dec.concentratedRank then
        -- Mixed_Mixed branch for child 1
        let child1_row_keys ← exceptMapList
          (fun i => _CMRelement_to_key self.rowKeys self.colKeys
            (parent_rows1.getD i CMRElem.invalid)) (List.range child1_nrows)
        let base1 ← exceptMapList
          (fun i => _CMRelement_to_key self.rowKeys self.colKeys
            (parent_columns1.getD i CMRElem.invalid)) (List.range (child1_ncols - 1))
        let epsilon1 := entryOrZero mat1
          (findEntryIdx mat1 (child1_nrows - 2) (child1_ncols - 1))
        let epsilon2 := entryOrZero mat1
          (findEntryIdx mat1 (child1_nrows - 1) (child1_ncols - 1))
        let k1a ← pyGet row_keys (child1_nrows - 2)
        let k1b ← pyGet row_keys (child1_nrows - 1)
        let child1_column_keys :=
          base1 ++ [ElementKey.mkComposed epsilon1 k1a epsilon2 k1b]
        let child1 : ChildNode :=
          ⟨child1_dec, some child1_row_keys, some child1_column_keys, childRoot⟩
        -- Mixed_Mixed branch for child 2
        let tail2 ← exceptMapList
          (fun i => _CMRelement_to_key self.rowKeys self.colKeys
            (parent_rows2.getD i CMRElem.invalid)) (List.range' 1 (child2_nrows - 1))
        -- the source reads mat1.entryValues at the flat index found in mat2
        let epsilon1' := entryOrZero mat1 (findEntryIdx mat2 0 0)
        let epsilon2' := entryOrZero mat1 (findEntryIdx mat2 0 1)
        let c0 ← pyGet column_keys 0
        let c1 ← pyGet column_keys 1
        let child2_row_keys :=
          ElementKey.mkComposed epsilon1' c0 epsilon2' c1 :: tail2
        let child2_column_keys ← exceptMapList
          (fun i => _CMRelement_to_key self.rowKeys self.colKeys
            (parent_columns2.getD i CMRElem.invalid)) (List.range child2_ncols)
        let child2 : ChildNode :=
          ⟨child2_dec, some child2_row_keys, some child2_column_keys, childRoot⟩
        pure (child1, child2)
      else
        -- Wide_Wide branch for child 1
        let child1_row_keys ← exceptMapList
          (fun i => _CMRelement_to_key self.rowKeys self.colKeys
            (parent_rows1.getD i CMRElem.invalid)) (List.range child1_nrows)
        let base1 ← exceptMapList
          (fun i => _CMRelement_to_key self.rowKeys self.colKeys
            (parent_columns1.getD i CMRElem.invalid)) (List.range (child1_ncols - 1))
        let epsilon1 := entryOrZero mat1
          (findEntryIdx mat1 (child1_nrows - 1) (child1_ncols - 1))
        let ck ← pyGet column_keys (child1_ncols - 1)
        let rk ← pyGet row_keys (child1_nrows - 1)
        let child1_column_keys :=
          base1 ++ [ElementKey.mkComposed 1 ck epsilon1 rk]
        let child1 : ChildNode :=
          ⟨child1_dec, some child1_row_keys, some child1_column_keys, childRoot⟩
        -- Wide_Wide branch for child 2
        let child2_row_keys ← exceptMapList
          (fun i => _CMRelement_to_key self.rowKeys self.colKeys
            (parent_rows2.getD i CMRElem.invalid)) (List.range child2_nrows)
        -- the source reads mat1.entryValues at the flat index found in mat2
        let epsilon1' := entryOrZero mat1 (findEntryIdx mat2 0 0)
        let tailCols ← exceptMapList
          (fun i => _CMRelement_to_key self.rowKeys self.colKeys
            (parent_columns2.getD i CMRElem.invalid)) (List.range' 1 (child2_ncols - 1))
        let c1 ← pyGet column_keys 1
        let r0 ← pyGet row_keys 0
        let child2_column_keys :=
          ElementKey.mkComposed 1 c1 epsilon1' r0 :: tailCols
        let child2 : ChildNode :=
          ⟨child2_dec, some child2_row_keys, some child2_column_keys, childRoot⟩
        pure (child1, child2)
    | _, _ =>
      pure (⟨child1_dec, none, none, childRoot⟩, ⟨child2_dec, none, none, childRoot⟩)
  | _ => throw PyErr.valueError

/-! ### Classification of handles into node variants (`_class`)

The type tags come from the external library's `CMR_MATROID_DEC_TYPE`
enumeration (`sage/libs/cmr/cmr.pxd`, not under `src/`). -/

/-- Modelled from the spec: the tag values of `CMR_MATROID_DEC_TYPE`.  The
special-leaf tags are the values strictly below `-1` (matching the source's
`typ < -1` test); `PLANAR` is the discriminator the external library assigns
to a handle that is simultaneously graphic and cographic. -/
def TYPE_UNKNOWN : Int := 0
def TYPE_ONE_SUM : Int := 1
def TYPE_TWO_SUM : Int := 2
def TYPE_THREE_SUM : Int := 3
def TYPE_SERIES_PARALLEL : Int := 4
def TYPE_PIVOTS : Int := 5
def TYPE_SUBMATRIX : Int := 6
def TYPE_GRAPH : Int := 7
def TYPE_COGRAPH : Int := 8
def TYPE_PLANAR : Int := 9
def TYPE_IRREGULAR : Int := -1
def TYPE_R10 : Int := -2

/-- The Python classes a handle can be mapped to. -/
inductive NodeClass where
  | oneSum
  | twoSum
  | threeSum
  | graphic
  | cographic
  | planar
  | specialLeaf
  | seriesParallelReduction
  | pivots
  | submatrix
  | threeConnectedIrregular
  | unknown
deriving DecidableEq, Repr

/-- `_class` from `seymour_decomposition.pyx`: the if-chain on the handle's
type tag.  The trailing `assert NotImplementedError` in the source asserts a
truthy class object and therefore never raises; for an unmatched tag the
Python function falls off the end and returns `None`, modelled here by
`none`. -/
def _class (typ : Int) : Option NodeClass :=
  if typ = TYPE_ONE_SUM then some NodeClass.oneSum
  else if typ = TYPE_TWO_SUM then some NodeClass.twoSum
  else if typ = TYPE_THREE_SUM then some NodeClass.threeSum
  else if typ = TYPE_GRAPH then
    (if typ = TYPE_COGRAPH then some NodeClass.planar else some NodeClass.graphic)
  else if typ = TYPE_COGRAPH then some NodeClass.cographic
  else if typ < -1 then some NodeClass.specialLeaf
  else if typ = TYPE_SERIES_PARALLEL then some NodeClass.seriesParallelReduction
  else if typ = TYPE_PIVOTS then some NodeClass.pivots
  else if typ = TYPE_SUBMATRIX then some NodeClass.submatrix
  else if typ = TYPE_IRREGULAR then some NodeClass.threeConnectedIrregular
  else if typ = TYPE_UNKNOWN then some NodeClass.unknown
  else none

/-! ### `Matrix_cmr_chr_sparse.is_graphic` (time-limited external test) -/

/-- The observable outcome of the external `CMRtestGraphicMatrix` call:
either it completes with a Boolean answer, or it aborts because the
caller-settable wall-clock `time_limit` was exhausted. -/
inductive CmrGraphicOutcome where
  | completed (result : Bool)
  | timeLimitHit
deriving DecidableEq, Repr

/-- Modelled from the spec: `CMR_CALL` (from `sage/libs/cmr`, not under
`src/`) raises `RuntimeError('Time limit exceeded')` when the wrapped CMR
call reports the time-limit error code, as exercised by the source's
`is_graphic(time_limit=0.0)` doctest.  After a completed call, the source
raises `NotImplementedError` when `certificate` was requested and otherwise
returns the Boolean `result`. -/
def is_graphic (outcome : CmrGraphicOutcome) (certificate : Bool) :
    Except PyErr Bool :=
  match outcome with
  | CmrGraphicOutcome.timeLimitHit => throw PyErr.runtimeError
  | CmrGraphicOutcome.completed result =>
    if certificate then throw PyErr.notImplementedError else pure result

/-! ### `Matrix_cmr_chr_sparse._init_from_dict` -/

/-- Insertion into a column-sorted list of `(column, value)` pairs. -/
def insertByCol (p : Nat × Int) : List (Nat × Int) → List (Nat × Int)
  | [] => [p]
  | q :: rest => if p.1 ≤ q.1 then p :: q :: rest else q :: insertByCol p rest

def sortPairsByCol (l : List (Nat × Int)) : List (Nat × Int) :=
  l.foldr insertByCol []

/-- Modelled from the spec: `CMRchrmatSortNonzeros` (external CMR library)
sorts the entries of each row by column index. -/
def sortNonzeros (m : ChrMat) : ChrMat :=
  let rowPairs := (List.range m.numRows).map fun r =>
    let lo := m.rowSlice.getD r 0
    let hi := m.rowSlice.getD (r + 1) 0
    sortPairsByCol ((((List.range m.entryColumns.length).filter
      fun i => lo ≤ i && i < hi)).map
        fun i => (m.entryColumns.getD i 0, m.entryValues.getD i 0))
  ⟨m.numRows, m.numColumns, m.rowSlice,
    (rowPairs.map fun l => l.map Prod.fst).flatten,
    (rowPairs.map fun l => l.map Prod.snd).flatten⟩

/-- One step of the placement pass of `_init_from_dict`:
`index = rowSlice[row]; entryColumns[index] = col;
entryValues[index] = coeff; rowSlice[row] = index + 1`, where the `char`
store of `coeff` raises `OverflowError` when the value does not fit in a
signed byte.  Entries with `coeff == 0` are skipped. -/
def placeEntry (st : List Nat × List Nat × List Int) (p : (Nat × Nat) × Int) :
    Except PyErr (List Nat × List Nat × List Int) := do
  let row := p.1.1
  let col := p.1.2
  let coeff := p.2
  if coeff ≠ 0 then
    let (rs, ecs, evs) := st
    let index := rs.getD row 0
    let ecs := ecs.set index col
    if coeff < -128 ∨ 127 < coeff then throw PyErr.overflowError
    let evs := evs.set index coeff
    pure (rs.set row (index + 1), ecs, evs)
  else
    pure st

/-- The placement pass over all dictionary items, in order. -/
def placeAll (d : List ((Nat × Nat) × Int)) (st : List Nat × List Nat × List Int) :
    Except PyErr (List Nat × List Nat × List Int) :=
  match d with
  | [] => pure st
  | p :: rest => do
    let st ← placeEntry st p
    placeAll rest st

/-- The opening statements of `_init_from_dict`: the allocation by
`CMRchrmatCreate` (external; modelled from the spec as zero-initialised
arrays of the right lengths), the counting pass
`for (row, col), coeff in d.items(): if coeff: rowSlice[row + 1] += 1`,
and the prefix-sum pass
`for row in range(nrows): rowSlice[row + 1] += rowSlice[row]`. -/
def initArrays (d : List ((Nat × Nat) × Int)) (nrows : Nat) :
    List Nat × List Nat × List Int :=
  let numNonzeros := d.length
  let rowSlice : List Nat := List.replicate (nrows + 1) 0
  let entryColumns : List Nat := List.replicate numNonzeros 0
  let entryValues : List Int := List.replicate numNonzeros 0
  let rowSlice := d.foldl
    (fun rs q => if q.2 ≠ 0 then rs.set (q.1.1 + 1) (rs.getD (q.1.1 + 1) 0 + 1) else rs)
    rowSlice
  let rowSlice := (List.range nrows).foldl
    (fun rs row => rs.set (row + 1) (rs.getD (row + 1) 0 + rs.getD row 0)) rowSlice
  (rowSlice, entryColumns, entryValues)

/-- The closing statements of `_init_from_dict`: the shift-back pass
`for row in reversed(range(nrows)): rowSlice[row + 1] = rowSlice[row]`,
then `rowSlice[0] = 0`, then the external `CMRchrmatSortNonzeros`. -/
def finishCSR (nrows ncols : Nat) (st : List Nat × List Nat × List Int) :
    ChrMat :=
  let (rowSlice, entryColumns, entryValues) := st
  let rowSlice := (List.range nrows).reverse.foldl
    (fun rs row => rs.set (row + 1) (rs.getD row 0)) rowSlice
  let rowSlice := rowSlice.set 0 0
  sortNonzeros ⟨nrows, ncols, rowSlice, entryColumns, entryValues⟩

/-- `Matrix_cmr_chr_sparse._init_from_dict`: builds the CSR arrays from the
coordinate dictionary `d` (a finite map, modelled as its item list) in three
passes — count nonzeros per row, prefix-sum the row slices, then place each
nonzero (`placeAll`, which raises the `OverflowError` of the `char` store) —
followed by the shift-back pass and the external sort. -/
def _init_from_dict (d : List ((Nat × Nat) × Int)) (nrows ncols : Nat) :
    Except PyErr ChrMat :=
  (placeAll d (initArrays d nrows)).map (finishCSR nrows ncols)

/-! ### Permutation normal form (`_palp_PM_max` in `palp_normal_form.pyx`)

The matrix is a dense list of rows.  A Sage `PermutationGroupElement` acting
on `{1..n}` is stored as the list of its 0-based images: `p[k] = σ(k+1) - 1`.
The dictionary `permutations` is modelled as an association list keyed by
`Nat`. -/

abbrev Perm := List Nat

/-- `σ(i+1) - 1`: the 0-based image of the 1-based point `i + 1`. -/
def pimg (p : Perm) (i : Nat) : Nat := p.getD i 0

def identityPerm (n : Nat) : Perm := List.range n

/-- `PermutationGroupElement._transpose_left(i, j)` (1-based points): the
product of the transposition `(i, j)` with `self` on the left, which under
Sage's left-to-right composition maps `i ↦ σ(j)` and `j ↦ σ(i)`: the stored
image list has positions `i - 1` and `j - 1` swapped. -/
def transposeLeft (p : Perm) (i j : Nat) : Perm :=
  let a := pimg p (i - 1)
  let b := pimg p (j - 1)
  (p.set (i - 1) b).set (j - 1) a

/-- A Sage permutation applied to a list: `g(l)[i] = l[g(i+1) - 1]`. -/
def applyPermList (p : Perm) (l : List Int) : List Int :=
  (List.range p.length).map fun i => l.getD (pimg p i) 0

def pmEntry (PM : List (List Int)) (i j : Nat) : Int :=
  (PM.getD i []).getD j 0

/-- `index_of_max`: the index of the first occurrence of the maximum
(`max(enumerate(iterable), key=lambda x: x[1])[0]`). -/
def indexOfMax (l : List Int) : Nat :=
  (l.foldl
    (fun (st : Nat × Nat × Option Int) x =>
      match st with
      | (_, cur, none) => (cur, cur + 1, some x)
      | (best, cur, some bv) =>
        if x > bv then (cur, cur + 1, some x) else (best, cur + 1, some bv))
    (0, 0, none)).1

abbrev PermPair := Perm × Perm

/-- The `permutations` / `permutations_bar` dictionaries. -/
abbrev PMap := List (Nat × PermPair)

def pmGet (m : PMap) (k : Nat) : PermPair :=
  match m.find? (fun e => e.1 = k) with
  | some e => e.2
  | none => ([], [])

def pmSet (m : PMap) (k : Nat) (v : PermPair) : PMap :=
  if m.any (fun e => e.1 = k) then
    m.map (fun e => if e.1 = k then (k, v) else e)
  else m ++ [(k, v)]

def pmDel (m : PMap) (k : Nat) : PMap :=
  m.filter (fun e => e.1 ≠ k)

def pmFilterLt (m : PMap) (n : Nat) : PMap :=
  m.filter (fun e => e.1 < n)

/-- The loop finding the column permutation for row 0:
`for j in range(n_v): m = index_of_max(PM[0, i] for i in range(j, n_v))` —
note that the source reads the *unpermuted* entries `PM[0, i]` here. -/
def firstRowPerm (PM : List (List Int)) (n_v : Nat) : Perm :=
  (List.range n_v).foldl
    (fun pv j =>
      let m := indexOfMax ((List.range (n_v - j)).map fun t => pmEntry PM 0 (j + t))
      if m > 0 then transposeLeft pv (j + 1) (m + j + 1) else pv)
    (identityPerm n_v)

/-- The inner `for i in range(1, n_v)` scan of one candidate row `k`:
selection of the maximal remaining entry (read through the current column
permutation), followed by the element-by-element comparison with the current
first row, with an early `break` when the row falls strictly behind. -/
def kRowScan (PM : List (List Int)) (k n_v : Nat) (p0v : Perm)
    (first_row : List Int) (pv0 : Perm) (d0 : Int) : Perm × Int :=
  let st := (List.range' 1 (n_v - 1)).foldl
    (fun (st : Perm × Int × Bool) i =>
      let (pv, d, done) := st
      if done then st else
      let scan := (List.range' (i + 1) (n_v - 1 - i)).foldl
        (fun (mm : Nat × Int) j =>
          let element := pmEntry PM k (pimg pv j)
          if element > mm.2 then (j, element) else mm)
        (i, pmEntry PM k (pimg pv i))
      let m := scan.1
      let pv := if m > i then transposeLeft pv (i + 1) (m + 1) else pv
      if d = 0 then
        let d := pmEntry PM k (pimg pv i) - (applyPermList p0v first_row).getD i 0
        if d < 0 then (pv, d, true) else (pv, d, false)
      else (pv, d, false))
    (pv0, d0, false)
  (st.1, st.2.1)

/-- One iteration of `for k in range(1, n_f)`: arrange row `k`, compare it
with the current first row, and discard it, record it as a symmetry, or make
it the new reference accordingly. -/
def kStep (PM : List (List Int)) (n_f n_v k : Nat)
    (st : PMap × Nat × List Int) : PMap × Nat × List Int :=
  let (permutations, n_s, first_row) := st
  -- permutations[n_s] = [S_f.one(), S_v.one()]
  let permutations := pmSet permutations n_s (identityPerm n_f, identityPerm n_v)
  let pv := (pmGet permutations n_s).2
  let m := indexOfMax ((List.range n_v).map fun j => pmEntry PM k (pimg pv j))
  let pv := if m > 0 then transposeLeft pv 1 (m + 1) else pv
  let permutations := pmSet permutations n_s ((pmGet permutations n_s).1, pv)
  let p0v := (pmGet permutations 0).2
  let d := pmEntry PM k (pimg pv 0) - (applyPermList p0v first_row).getD 0 0
  if d < 0 then
    -- the largest element of this row is smaller: nothing to do
    (permutations, n_s, first_row)
  else
    let scan := kRowScan PM k n_v p0v first_row pv d
    let pv := scan.1
    let d := scan.2
    let permutations := pmSet permutations n_s ((pmGet permutations n_s).1, pv)
    if d < 0 then
      -- this row is smaller than the first row: drop the candidate
      (pmDel permutations n_s, n_s, first_row)
    else
      let pr := transposeLeft (pmGet permutations n_s).1 1 (k + 1)
      let permutations := pmSet permutations n_s (pr, pv)
      if d = 0 then
        -- a symmetry
        (permutations, n_s + 1, first_row)
      else
        -- a strictly larger row: it becomes the first row, symmetries reset
        ([(0, pmGet permutations n_s)], 1, PM.getD k [])

/-- The computation of the symmetry blocks `S` from the fixed first row `b`:
`S[i] = S[i-1]; S[S[i]-1] += 1` on a tie, else `S[i] = i + 1`. -/
def symmetryBlocks (b : List Int) (n_v : Nat) : List Nat :=
  (List.range' 1 (n_v - 1)).foldl
    (fun S i =>
      if b.getD (i - 1) 0 = b.getD i 0 then
        let S := S.set i (S.getD (i - 1) 0)
        S.set (S.getD i 0 - 1) (S.getD (S.getD i 0 - 1) 0 + 1)
      else S.set i (i + 1))
    ((List.range n_v).map (· + 1))

/-- The mutable state threaded through the body of the `l`-loop. -/
structure LState where
  pb : PMap
  n_p : Nat
  ccf : Nat
  cf : Nat
  l_r : List Int
  n_s : Nat

/-- One iteration of the `for s in range(l, n_f)` search for local row
candidates within the first symmetry block. -/
def lsStep (PM : List (List Int)) (l k : Nat) (S : List Nat)
    (permutations : PMap) (st : LState) (s : Nat) : LState :=
  let pb := (List.range' 1 (S.getD 0 0 - 1)).foldl
    (fun pb j =>
      let pair := pmGet pb st.n_p
      let v0 := pmEntry PM (pimg pair.1 s) (pimg pair.2 0)
      let vj := pmEntry PM (pimg pair.1 s) (pimg pair.2 j)
      if v0 < vj then pmSet pb st.n_p (pair.1, transposeLeft pair.2 1 (j + 1)) else pb)
    st.pb
  let pair := pmGet pb st.n_p
  if st.ccf = 0 then
    let l_r := st.l_r.set 0 (pmEntry PM (pimg pair.1 s) (pimg pair.2 0))
    let pb := if s ≠ l then pmSet pb st.n_p (transposeLeft pair.1 (l + 1) (s + 1), pair.2)
              else pb
    let n_p := st.n_p + 1
    let pb := pmSet pb n_p (pmGet permutations k)
    { st with pb := pb, n_p := n_p, ccf := 1, l_r := l_r }
  else
    let d1 := pmEntry PM (pimg pair.1 s) (pimg pair.2 0)
    let d := d1 - st.l_r.getD 0 0
    if d < 0 then
      { st with pb := pb }
    else if d = 0 then
      let pb := if s ≠ l then pmSet pb st.n_p (transposeLeft pair.1 (l + 1) (s + 1), pair.2)
                else pb
      let n_p := st.n_p + 1
      let pb := pmSet pb n_p (pmGet permutations k)
      { st with pb := pb, n_p := n_p }
    else
      let l_r := st.l_r.set 0 d1
      let pb := if s ≠ l then pmSet pb st.n_p (transposeLeft pair.1 (l + 1) (s + 1), pair.2)
                else pb
      let pb2 : PMap := [(0, pmGet pb st.n_p)]
      let pb2 := pmSet pb2 1 (pmGet permutations k)
      { st with pb := pb2, n_p := 1, cf := 0, l_r := l_r, n_s := k + 1 }

/-- One iteration of the `while s > 0` check of a symmetry block `c` against
each surviving local permutation. -/
def lcsStep (PM : List (List Int)) (l k c h : Nat) (st : LState) (s : Nat) :
    LState :=
  let pb := (List.range' (c + 1) (h - (c + 1))).foldl
    (fun pb j =>
      let pair := pmGet pb s
      let vc := pmEntry PM (pimg pair.1 l) (pimg pair.2 c)
      let vj := pmEntry PM (pimg pair.1 l) (pimg pair.2 j)
      if vc < vj then pmSet pb s (pair.1, transposeLeft pair.2 (c + 1) (j + 1)) else pb)
    st.pb
  let pair := pmGet pb s
  if st.ccf = 0 then
    let l_r := st.l_r.set c (pmEntry PM (pimg pair.1 l) (pimg pair.2 c))
    { st with pb := pb, ccf := 1, l_r := l_r }
  else
    let d1 := pmEntry PM (pimg pair.1 l) (pimg pair.2 c)
    let d := d1 - st.l_r.getD c 0
    if d < 0 then
      let n_p := st.n_p - 1
      let pb := if s < n_p then pmSet pb s (pmGet pb n_p) else pb
      { st with pb := pb, n_p := n_p }
    else if d > 0 then
      let l_r := st.l_r.set c d1
      { st with pb := pb, l_r := l_r, cf := 0, n_p := s + 1, n_s := k + 1 }
    else
      { st with pb := pb }

/-- `for c in range(1, n_v)`: check the permutations found for row `l`
against the remaining symmetry blocks. -/
def lcLoop (PM : List (List Int)) (l k n_v : Nat) (S : List Nat)
    (st : LState) : LState :=
  (List.range' 1 (n_v - 1)).foldl
    (fun st c =>
      let h := S.getD c 0
      let st := { st with ccf := st.cf }
      let h := if h < c + 1 then S.getD (h - 1) 0 else h
      -- s = n_p; while s > 0: s -= 1; ...
      ((List.range st.n_p).reverse).foldl (fun st s => lcsStep PM l k c h st s) st)
    st

/-- The body of `for k in range(n_s_bar - 1, -1, -1)` inside the `l`-loop,
including the final merge of `permutations_bar` back into `permutations`. -/
def lkStep (PM : List (List Int)) (l n_f n_v : Nat) (S : List Nat)
    (st : PMap × Nat × Nat × List Int) (k : Nat) : PMap × Nat × Nat × List Int :=
  let (permutations, n_s, cf, l_r) := st
  let lst : LState :=
    { pb := [(0, pmGet permutations k)], n_p := 0, ccf := cf, cf := cf,
      l_r := l_r, n_s := n_s }
  let lst := (List.range' l (n_f - l)).foldl
    (fun st s => lsStep PM l k S permutations st s) lst
  let lst := lcLoop PM l k n_v S lst
  -- if (n_s - 1) > k: permutations[k] = list(permutations[n_s - 1])
  let permutations :=
    if lst.n_s - 1 > k then pmSet permutations k (pmGet permutations (lst.n_s - 1))
    else permutations
  let n_s := lst.n_s - 1
  let merged := (List.range lst.n_p).foldl
    (fun (st : PMap × Nat) s => (pmSet st.1 st.2 (pmGet lst.pb s), st.2 + 1))
    (permutations, n_s)
  let permutations := merged.1
  let n_s := merged.2
  let cf := n_s
  (permutations, n_s, cf, lst.l_r)

/-- The inner `while c < (s - 1)` of the symmetry-block refinement; `fuel`
bounds the iteration count (the loop advances `c` each time, so `n_v + 1`
steps suffice). -/
def refineInner (M : List Int) : Nat → Nat → Nat → List Nat → Nat × List Nat
  | 0, c, _, S => (c, S)
  | fuel + 1, c, stop, S =>
    if c < stop then
      let S :=
        if M.getD c 0 = M.getD (c - 1) 0 then
          let S := S.set c (S.getD (c - 1) 0)
          S.set (S.getD c 0 - 1) (S.getD (S.getD c 0 - 1) 0 + 1)
        else S.set c (c + 1)
      refineInner M fuel (c + 1) stop S
    else (c, S)

/-- The outer `while c < n_v` of the symmetry-block refinement; `fuel`
bounds the iteration count (each pass advances `c` by at least one, so
`n_v + 1` steps suffice). -/
def refineOuter (M : List Int) (n_v : Nat) : Nat → Nat → List Nat → List Nat
  | 0, _, S => S
  | fuel + 1, c, S =>
    if c < n_v then
      let s := S.getD c 0 + 1
      let S := S.set c (c + 1)
      let inner := refineInner M (n_v + 1) (c + 1) (s - 1) S
      refineOuter M n_v fuel inner.1 inner.2
    else S

/-- One iteration of `for l in range(1, n_f - 1)`. -/
def lStep (PM : List (List Int)) (n_f n_v : Nat) (st : PMap × List Nat)
    (l : Nat) : PMap × List Nat :=
  let (permutations, S) := st
  let n_s := permutations.length
  let n_s_bar := n_s
  let l_r : List Int := List.replicate n_v 0
  let looped := ((List.range n_s_bar).reverse).foldl
    (fun st k => lkStep PM l n_f n_v S st k) (permutations, n_s, 0, l_r)
  let permutations := pmFilterLt looped.1 looped.2.1
  if S = (List.range n_v).map (· + 1) then (permutations, S)
  else
    let p0 := pmGet permutations 0
    let M := (List.range n_v).map fun j => pmEntry PM (pimg p0.1 l) (pimg p0.2 j)
    let S := refineOuter M n_v (n_v + 1) 0 S
    (permutations, S)

/-- The inverse image `σ⁻¹(x+1) - 1`, used to place entries. -/
def pinv (p : Perm) (x : Nat) : Nat :=
  ((List.range p.length).find? fun i => pimg p i = x).getD 0

/-- Sage's `with_permuted_rows_and_columns(ρ, τ)`: entry `(i, j)` of the
matrix is sent to position `(ρ(i+1)-1, τ(j+1)-1)`. -/
def withPermutedRowsAndColumns (PM : List (List Int)) (ρ τ : Perm) :
    List (List Int) :=
  (List.range PM.length).map fun r =>
    (List.range (PM.getD 0 []).length).map fun c =>
      pmEntry PM (pinv ρ r) (pinv τ c)

/-- `_palp_PM_max` on the pairing matrix `PM` (list of `n_f` rows of length
`n_v`): returns the maximal matrix together with the surviving permutation
dictionary (the source returns the pair when `check=True` and just the
matrix otherwise). -/
def _palp_PM_max (PM : List (List Int)) : List (List Int) × PMap :=
  let n_f := PM.length
  let n_v := (PM.getD 0 []).length
  let pv0 := firstRowPerm PM n_v
  let permutations : PMap := [(0, (identityPerm n_f, pv0))]
  let first_row := PM.getD 0 []
  let arranged := (List.range' 1 (n_f - 1)).foldl
    (fun st k => kStep PM n_f n_v k st) (permutations, 1, first_row)
  let permutations := pmFilterLt arranged.1 arranged.2.1
  let p0 := pmGet permutations 0
  let b := (List.range n_v).map fun j => pmEntry PM (pimg p0.1 0) (pimg p0.2 j)
  let S := symmetryBlocks b n_v
  let final := (List.range' 1 (n_f - 1 - 1)).foldl
    (fun st l => lStep PM n_f n_v st l) (permutations, S)
  let permutations := final.1
  let p0 := pmGet permutations 0
  (withPermutedRowsAndColumns PM p0.1 p0.2, permutations)

/-- The matrix part of `_palp_PM_max` (the `check=False` return value). -/
def palpNormalForm (PM : List (List Int)) : List (List Int) :=
  (_palp_PM_max PM).1

end SageCMR

/-! ## Theorems settling the claims -/

namespace SageCMR

/-- **C5, counterexample.**  The claim states that equality of element keys
depends only on the underlying unordered label set and that sign information
does not affect equality.  The two composed keys below have the same label
set `{0, 1}` but compare unequal, because `ElementKey.__eq__` compares the
frozenset of `(sign, label)` pairs and the signs differ. -/
theorem c5_claim_counterexample :
    ekLabelSet (ElementKey.mkComposed 1 0 1 1) = ekLabelSet (ElementKey.mkComposed (-1) 0 1 1) ∧
    ekEq (ElementKey.mkComposed 1 0 1 1) (ElementKey.mkComposed (-1) 0 1 1) = false := by
  decide

/-- **C5, amended.**  Equality and hash of element keys depend only on the
underlying unordered set of `(sign, label)` pairs stored in `_key` (not on
the label set alone): a composed key equals the composed key built from the
swapped operand order, equality holds exactly when the `_key` frozensets are
equal (so a sign flip does change equality), and equal keys hash alike. -/
theorem c5_key_equality_amended :
    (∀ s1 l1 s2 l2 : Int,
      ekEq (ElementKey.mkComposed s1 l1 s2 l2) (ElementKey.mkComposed s2 l2 s1 l1) = true) ∧
    (∀ a b : ElementKey, ekEq a b = true ↔ a.key = b.key) ∧
    (∀ a b : ElementKey, ekEq a b = true → ekHash a = ekHash b) := by
  refine ⟨?_, ?_, ?_⟩
  · intro s1 l1 s2 l2
    have h : ({KeyAtom.signed s1 l1, KeyAtom.signed s2 l2} : Finset KeyAtom)
        = {KeyAtom.signed s2 l2, KeyAtom.signed s1 l1} := Finset.pair_comm _ _
    exact decide_eq_true h
  · intro a b
    simp only [ekEq, decide_eq_true_eq]
  · intro a b h
    simp only [ekEq, decide_eq_true_eq] at h
    simp [ekHash, h]

/-- Witness for `c5_key_equality_amended` at concrete keys. -/
theorem c5_key_equality_amended_witness :
    ekEq (ElementKey.mkComposed 1 5 (-1) 7) (ElementKey.mkComposed (-1) 7 1 5) = true ∧
    ekHash (ElementKey.mkSimple 3) = ekHash (ElementKey.mkSimple 3) :=
  ⟨c5_key_equality_amended.1 1 5 (-1) 7,
   c5_key_equality_amended.2.2 (ElementKey.mkSimple 3) (ElementKey.mkSimple 3) (by decide)⟩

/-- **C3, counterexample.**  The claim states that a handle that is both
graphic and cographic is classified as `Planar` and that an unmapped tag
causes a fatal internal-consistency error.  The planar tag (the external
library discriminator for graphic-and-cographic handles) is classified to no
variant at all: `_class` falls off the end and returns `None` — the
`Planar` branch is dead code (it is guarded by `typ == ..._GRAPH` and then
`typ == ..._COGRAPH`, which cannot both hold), and the trailing
`assert NotImplementedError` asserts a truthy class object, so no error is
raised inside the classifier. -/
theorem c3_claim_counterexample : _class TYPE_PLANAR = none := by decide

/-- **C3, amended.**  Classification follows the stated priority order for
every tag the source names — sums, graphic-only, cographic-only, the
special-leaf tags (every tag strictly below `-1`), series-parallel, pivots,
submatrix, irregular, unknown — each to exactly one variant; but it is not
total: no tag whatsoever is classified `Planar` (the graphic-and-cographic
branch is unreachable), and the planar tag yields no class and no raised
error instead of a fatal internal-consistency error. -/
theorem c3_classification_amended :
    (∀ t : Int, t < -1 → _class t = some NodeClass.specialLeaf) ∧
    (∀ t : Int, _class t ≠ some NodeClass.planar) ∧
    (_class TYPE_ONE_SUM = some NodeClass.oneSum ∧
     _class TYPE_TWO_SUM = some NodeClass.twoSum ∧
     _class TYPE_THREE_SUM = some NodeClass.threeSum ∧
     _class TYPE_GRAPH = some NodeClass.graphic ∧
     _class TYPE_COGRAPH = some NodeClass.cographic ∧
     _class TYPE_SERIES_PARALLEL = some NodeClass.seriesParallelReduction ∧
     _class TYPE_PIVOTS = some NodeClass.pivots ∧
     _class TYPE_SUBMATRIX = some NodeClass.submatrix ∧
     _class TYPE_IRREGULAR = some NodeClass.threeConnectedIrregular ∧
     _class TYPE_UNKNOWN = some NodeClass.unknown ∧
     _class TYPE_PLANAR = none) := by
  refine ⟨?_, ?_, by decide⟩
  · intro t ht
    have h1 : t ≠ TYPE_ONE_SUM := by unfold TYPE_ONE_SUM; omega
    have h2 : t ≠ TYPE_TWO_SUM := by unfold TYPE_TWO_SUM; omega
    have h3 : t ≠ TYPE_THREE_SUM := by unfold TYPE_THREE_SUM; omega
    have h4 : t ≠ TYPE_GRAPH := by unfold TYPE_GRAPH; omega
    have h5 : t ≠ TYPE_COGRAPH := by unfold TYPE_COGRAPH; omega
    simp [_class, h1, h2, h3, h4, h5, ht]
  · intro t
    by_cases h1 : t = TYPE_ONE_SUM
    · rw [h1]; decide
    by_cases h2 : t = TYPE_TWO_SUM
    · rw [h2]; decide
    by_cases h3 : t = TYPE_THREE_SUM
    · rw [h3]; decide
    by_cases h4 : t = TYPE_GRAPH
    · rw [h4]; decide
    by_cases h5 : t = TYPE_COGRAPH
    · rw [h5]; decide
    by_cases h6 : t < -1
    · simp [_class, h1, h2, h3, h4, h5, h6]
    by_cases h7 : t = TYPE_SERIES_PARALLEL
    · rw [h7]; decide
    by_cases h8 : t = TYPE_PIVOTS
    · rw [h8]; decide
    by_cases h9 : t = TYPE_SUBMATRIX
    · rw [h9]; decide
    by_cases h10 : t = TYPE_IRREGULAR
    · rw [h10]; decide
    by_cases h11 : t = TYPE_UNKNOWN
    · rw [h11]; decide
    simp [_class, h1, h2, h3, h4, h5, h6, h7, h8, h9, h10, h11]

/-- Witness for `c3_classification_amended`: the R10 tag is strictly below
`-1` and is classified as a special leaf. -/
theorem c3_classification_amended_witness :
    TYPE_R10 < -1 ∧ _class TYPE_R10 = some NodeClass.specialLeaf :=
  ⟨by decide, c3_classification_amended.1 TYPE_R10 (by decide)⟩

/-- **C9.**  When the external graphicness test exhausts the caller's time
budget, the wrapper raises the distinguished `RuntimeError` (time limit
exceeded); the value `False` is returned only by a completed external call
that answered negatively (without a certificate request), so a caller can
never mistake a timeout for a negative answer. -/
theorem c9_time_limit_distinct :
    (∀ cert : Bool,
      is_graphic CmrGraphicOutcome.timeLimitHit cert = Except.error PyErr.runtimeError) ∧
    (∀ (outcome : CmrGraphicOutcome) (cert : Bool),
      is_graphic outcome cert = Except.ok false ↔
        outcome = CmrGraphicOutcome.completed false ∧ cert = false) := by
  constructor
  · intro cert
    rfl
  · intro outcome cert
    cases outcome with
    | completed b => cases b <;> cases cert <;> simp [is_graphic, pure, Except.pure]
    | timeLimitHit => cases cert <;> simp [is_graphic]

/-- Witness for `c9_time_limit_distinct`. -/
theorem c9_time_limit_distinct_witness :
    is_graphic CmrGraphicOutcome.timeLimitHit false = Except.error PyErr.runtimeError :=
  c9_time_limit_distinct.1 false

/-- **C10.**  `matrix()` returns `None` exactly when the external handle
holds no materialized matrix, and otherwise returns the sparse matrix tied
to the tree's root (`result._root = self._root or self`). -/
theorem c10_matrix_option (n : NodeState) :
    (nodeMatrix n = none ↔ n.dec.mat = none) ∧
    (∀ m : ChrMat, n.dec.mat = some m → nodeMatrix n = some (m, n.root.getD n.id)) := by
  cases h : n.dec.mat with
  | none => simp [nodeMatrix, h]
  | some m => simp [nodeMatrix, h]

def c10exMat : ChrMat := ⟨1, 1, [0, 1], [0], [1]⟩

def c10exNode : NodeState :=
  ⟨Dec.mk 1 1 7 (some c10exMat) none none false [], none, none, 5, none⟩

/-- Witness for `c10_matrix_option` on a root node holding a matrix. -/
theorem c10_matrix_option_witness :
    nodeMatrix c10exNode = some (c10exMat, 5) :=
  (c10_matrix_option c10exNode).2 c10exMat rfl

/-- **C7.**  Assigning row keys (or column keys) raises `ValueError` exactly
when the supplied keys conflict with previously set keys or their
cardinality differs from the node's row (column) count; every consistent
assignment succeeds and stores the supplied value; and a successful
assignment on a node whose keys were already set leaves the observable key
value unchanged (immutability).  `_set_column_keys` behaves identically. -/
theorem c7_key_assignment (cur new : Option (List ElementKey)) (n : Nat) :
    (_set_row_keys cur new n = Except.error PyErr.valueError ↔
      (cur.isSome = true ∧ ekOptListEq cur new = false) ∨
      (new.isSome = true ∧ (new.getD []).length ≠ n)) ∧
    (¬ ((cur.isSome = true ∧ ekOptListEq cur new = false) ∨
        (new.isSome = true ∧ (new.getD []).length ≠ n)) →
      _set_row_keys cur new n = Except.ok new) ∧
    (∀ (k : List ElementKey) (v : Option (List ElementKey)), cur = some k →
      _set_row_keys cur new n = Except.ok v → ekOptListEq (some k) v = true) ∧
    _set_row_keys cur new n = _set_column_keys cur new n := by
  refine ⟨?_, ?_, ?_, by unfold _set_row_keys _set_column_keys; rfl⟩
  · unfold _set_row_keys
    by_cases hA : (cur.isSome && !ekOptListEq cur new) = true
    · rw [if_pos hA]
      simp only [Bool.and_eq_true, Bool.not_eq_true'] at hA
      exact iff_of_true rfl (Or.inl hA)
    · rw [if_neg hA]
      simp only [Bool.and_eq_true, Bool.not_eq_true'] at hA
      by_cases hB : (new.isSome && decide ((new.getD []).length ≠ n)) = true
      · rw [if_pos hB]
        simp only [Bool.and_eq_true, decide_eq_true_eq] at hB
        exact iff_of_true rfl (Or.inr hB)
      · rw [if_neg hB]
        simp only [Bool.and_eq_true, decide_eq_true_eq] at hB
        apply iff_of_false
        · intro h
          exact Except.noConfusion h
        · intro h
          rcases h with h | h
          · exact hA h
          · exact hB h
  · intro h
    unfold _set_row_keys
    have hA : ¬ ((cur.isSome && !ekOptListEq cur new) = true) := by
      simp only [Bool.and_eq_true, Bool.not_eq_true']
      intro hx
      exact h (Or.inl hx)
    have hB : ¬ ((new.isSome && decide ((new.getD []).length ≠ n)) = true) := by
      simp only [Bool.and_eq_true, decide_eq_true_eq]
      intro hx
      exact h (Or.inr hx)
    rw [if_neg hA, if_neg hB]
  · intro k v hk hok
    unfold _set_row_keys at hok
    by_cases hA : (cur.isSome && !ekOptListEq cur new) = true
    · rw [if_pos hA] at hok
      exact Except.noConfusion hok
    · rw [if_neg hA] at hok
      by_cases hB : (new.isSome && decide ((new.getD []).length ≠ n)) = true
      · rw [if_pos hB] at hok
        exact Except.noConfusion hok
      · rw [if_neg hB] at hok
        injection hok with hv
        subst hv
        simp only [Bool.and_eq_true, Bool.not_eq_true'] at hA
        subst hk
        cases hx : ekOptListEq (some k) new with
        | false => exact absurd ⟨rfl, hx⟩ hA
        | true => rfl

/-- Witness for `c7_key_assignment`: re-assigning the same singleton key
tuple to a node with one row succeeds and leaves the keys equal. -/
theorem c7_key_assignment_witness :
    _set_row_keys (some [ElementKey.mkSimple 1]) (some [ElementKey.mkSimple 1]) 1 =
      Except.ok (some [ElementKey.mkSimple 1]) ∧
    ekOptListEq (some [ElementKey.mkSimple 1]) (some [ElementKey.mkSimple 1]) = true := by
  refine ⟨(c7_key_assignment _ _ _).2.1 (by decide), ?_⟩
  exact (c7_key_assignment (some [ElementKey.mkSimple 1]) (some [ElementKey.mkSimple 1]) 1).2.2.1
    [ElementKey.mkSimple 1] (some [ElementKey.mkSimple 1]) rfl
    ((c7_key_assignment _ _ _).2.1 (by decide))

/-! Lemmas about the placement pass of `_init_from_dict`. -/

theorem placeEntry_error_of_outRange (st : List Nat × List Nat × List Int)
    (p : (Nat × Nat) × Int) (h : p.2 < -128 ∨ 127 < p.2) :
    placeEntry st p = Except.error PyErr.overflowError := by
  have hnz : p.2 ≠ 0 := by omega
  unfold placeEntry
  rw [if_pos hnz]
  obtain ⟨rs, ecs, evs⟩ := st
  simp only
  rw [if_pos h]
  rfl

theorem placeEntry_ok_of_inRange (st : List Nat × List Nat × List Int)
    (p : (Nat × Nat) × Int) (h : -128 ≤ p.2 ∧ p.2 ≤ 127) :
    ∃ st', placeEntry st p = Except.ok st' := by
  unfold placeEntry
  by_cases hnz : p.2 ≠ 0
  · rw [if_pos hnz]
    obtain ⟨rs, ecs, evs⟩ := st
    simp only
    have hr : ¬ (p.2 < -128 ∨ 127 < p.2) := by omega
    rw [if_neg hr]
    exact ⟨_, rfl⟩
  · rw [if_neg hnz]
    exact ⟨st, rfl⟩

theorem placeAll_error_iff (d : List ((Nat × Nat) × Int)) :
    ∀ st, (placeAll d st = Except.error PyErr.overflowError ↔
      ∃ p ∈ d, p.2 < -128 ∨ 127 < p.2) := by
  induction d with
  | nil =>
    intro st
    apply iff_of_false
    · intro h
      exact Except.noConfusion h
    · rintro ⟨p, hp, _⟩
      cases hp
  | cons p rest ih =>
    intro st
    by_cases hp : p.2 < -128 ∨ 127 < p.2
    · rw [placeAll, placeEntry_error_of_outRange st p hp]
      exact iff_of_true rfl ⟨p, List.mem_cons_self p rest, hp⟩
    · have h2 : -128 ≤ p.2 ∧ p.2 ≤ 127 := by omega
      obtain ⟨st', hst'⟩ := placeEntry_ok_of_inRange st p h2
      rw [placeAll, hst']
      show placeAll rest st' = Except.error PyErr.overflowError ↔ _
      rw [ih st']
      constructor
      · rintro ⟨q, hq, hq2⟩
        exact ⟨q, List.mem_cons_of_mem p hq, hq2⟩
      · rintro ⟨q, hq, hq2⟩
        rcases List.mem_cons.mp hq with hq | hq
        · subst hq
          exact absurd hq2 hp
        · exact ⟨q, hq, hq2⟩

theorem placeAll_cases (d : List ((Nat × Nat) × Int)) :
    ∀ st, (∃ st', placeAll d st = Except.ok st') ∨
      placeAll d st = Except.error PyErr.overflowError := by
  induction d with
  | nil =>
    intro st
    exact Or.inl ⟨st, rfl⟩
  | cons p rest ih =>
    intro st
    by_cases hp : p.2 < -128 ∨ 127 < p.2
    · rw [placeAll, placeEntry_error_of_outRange st p hp]
      exact Or.inr rfl
    · have h2 : -128 ≤ p.2 ∧ p.2 ≤ 127 := by omega
      obtain ⟨st', hst'⟩ := placeEntry_ok_of_inRange st p h2
      rw [placeAll, hst']
      exact ih st'

/-- **C8.**  Constructing a sparse CMR matrix from a coordinate dictionary
with explicit dimensions fails with the `OverflowError`-kind condition
exactly when some stored value lies outside the signed one-byte range
`[-128, 127]` (so an out-of-range value is never silently truncated), and
construction succeeds for every in-range input. -/
theorem c8_value_range (d : List ((Nat × Nat) × Int)) (nrows ncols : Nat)
    (_hbound : ∀ p ∈ d, p.1.1 < nrows ∧ p.1.2 < ncols) :
    (_init_from_dict d nrows ncols = Except.error PyErr.overflowError ↔
      ∃ p ∈ d, p.2 < -128 ∨ 127 < p.2) ∧
    ((∀ p ∈ d, -128 ≤ p.2 ∧ p.2 ≤ 127) →
      ∃ m, _init_from_dict d nrows ncols = Except.ok m) := by
  unfold _init_from_dict
  rcases placeAll_cases d (initArrays d nrows) with h | h
  · obtain ⟨st', hst'⟩ := h
    rw [hst']
    constructor
    · constructor
      · intro hcontra
        exact Except.noConfusion hcontra
      · intro hcontra
        have herr := (placeAll_error_iff d (initArrays d nrows)).mpr hcontra
        rw [hst'] at herr
        exact Except.noConfusion herr
    · intro _
      exact ⟨_, rfl⟩
  · rw [h]
    constructor
    · exact iff_of_true rfl ((placeAll_error_iff d _).mp h)
    · intro hin
      obtain ⟨q, hq, hq2⟩ := (placeAll_error_iff d _).mp h
      have := hin q hq
      omega

/-- Witness for `c8_value_range`: a 1×1 matrix holding the single in-range
value 1 is constructed successfully. -/
theorem c8_value_range_witness :
    ∃ m, _init_from_dict [((0, 0), 1)] 1 1 = Except.ok m :=
  (c8_value_range [((0, 0), 1)] 1 1 (by decide)).2 (by decide)

/-! Destructors for successful `Except` computations, used to trace the
child-derivation code paths. -/

theorem exceptBind_ok {α β : Type} {x : Except PyErr α} {f : α → Except PyErr β}
    {b : β} (h : (x >>= f) = Except.ok b) :
    ∃ a, x = Except.ok a ∧ f a = Except.ok b := by
  cases x with
  | error e => exact Except.noConfusion h
  | ok a => exact ⟨a, rfl, h⟩

/-- A wrapped child keeps exactly the handle it was created from. -/
theorem create_child_dec (self : NodeState) (c : Dec) (n : ChildNode)
    (h : _create_child_node self c = Except.ok n) : n.dec = c := by
  unfold _create_child_node at h
  cases hrk : self.rowKeys with
  | none =>
    rw [hrk] at h
    have h2 : Except.ok (⟨c, none, none, some (self.root.getD self.id)⟩ : ChildNode)
        = Except.ok n := h
    injection h2 with h3
    rw [← h3]
  | some rk =>
    rw [hrk] at h
    cases hck : self.colKeys with
    | none =>
      rw [hck] at h
      have h2 : Except.ok (⟨c, none, none, some (self.root.getD self.id)⟩ : ChildNode)
          = Except.ok n := h
      injection h2 with h3
      rw [← h3]
    | some ck =>
      rw [hck] at h
      obtain ⟨crk, _, h⟩ := exceptBind_ok h
      obtain ⟨cck, _, h⟩ := exceptBind_ok h
      have h2 : Except.ok (⟨c, some crk, some cck, some (self.root.getD self.id)⟩ : ChildNode)
          = Except.ok n := h
      injection h2 with h3
      rw [← h3]

/-- Wrapping a list of child handles preserves the handles and their
order. -/
theorem exceptMapList_children_dec (self : NodeState) :
    ∀ (l : List Dec) (res : List ChildNode),
      exceptMapList (_create_child_node self) l = Except.ok res →
      res.map ChildNode.dec = l := by
  intro l
  induction l with
  | nil =>
    intro res h
    have h2 : Except.ok ([] : List ChildNode) = Except.ok res := h
    injection h2 with h3
    rw [← h3]
    rfl
  | cons a l ih =>
    intro res h
    rw [exceptMapList] at h
    obtain ⟨b, hb, h⟩ := exceptBind_ok h
    obtain ⟨bs, hbs, h⟩ := exceptBind_ok h
    have h2 : Except.ok (b :: bs) = Except.ok res := h
    injection h2 with h3
    rw [← h3]
    simp [create_child_dec self a b hb, ih bs hbs]

/-! The ordering the claim asserts for child enumeration: children sorted by
their `parent_rows_and_columns` tuples (Python tuple comparison). -/

/-- Python `list`/`tuple` strict lexicographic comparison on index lists. -/
def natListLt : List Nat → List Nat → Bool
  | [], [] => false
  | [], _ :: _ => true
  | _ :: _, [] => false
  | x :: xs, y :: ys => x < y || (x = y && natListLt xs ys)

/-- Comparison of two `parent_rows_and_columns` results as Python `sorted`
would compare them (defined on the index-tuple case; `ElementKey` objects
carry no order in the source). -/
def parentTupleLe (a b : Option ParentTuple × Option ParentTuple) : Bool :=
  match a, b with
  | (some (ParentTuple.fromIndices r1), some (ParentTuple.fromIndices c1)),
    (some (ParentTuple.fromIndices r2), some (ParentTuple.fromIndices c2)) =>
    natListLt r1 r2 || (r1 = r2 && (natListLt c1 c2 || c1 = c2))
  | _, _ => false

/-- The claim's sortedness property of an enumerated child tuple. -/
def childrenSortedByParentTuples (cs : List ChildNode) : Bool :=
  (cs.zip cs.tail).all fun p =>
    parentTupleLe (parent_rows_and_columns p.1) (parent_rows_and_columns p.2)

/-- A two-summand 2-sum handle whose children arrive from the external
structure in non-sorted order, exactly as in the source's own
`TwoSumNode` doctest (`parent_rows_and_columns` values
`((4, 5, 6, 7, 0), (0, 1, 2, 3))` then `((0, 1, 2, 3), (0, 4, 5, 6, 7))`). -/
def c4childA : Dec :=
  Dec.mk 5 4 7 none
    (some [CMRElem.rowElem 4, CMRElem.rowElem 5, CMRElem.rowElem 6,
           CMRElem.rowElem 7, CMRElem.rowElem 0])
    (some [CMRElem.colElem 0, CMRElem.colElem 1, CMRElem.colElem 2,
           CMRElem.colElem 3])
    false []

def c4childB : Dec :=
  Dec.mk 4 5 7 none
    (some [CMRElem.rowElem 0, CMRElem.rowElem 1, CMRElem.rowElem 2,
           CMRElem.rowElem 3])
    (some [CMRElem.colElem 0, CMRElem.colElem 4, CMRElem.colElem 5,
           CMRElem.colElem 6, CMRElem.colElem 7])
    false []

def c4node : NodeState :=
  ⟨Dec.mk 8 8 2 none none none false [c4childA, c4childB], none, none, 0, none⟩

/-- **C4, counterexample.**  On a (non-3-sum) node whose external structure
enumerates its two children with descending parent-row tuples, `_children`
returns them in that structural order, so the returned tuple is *not*
sorted by the children's parent-row/parent-column index tuples as the claim
states. -/
theorem c4_claim_counterexample :
    Except.map (fun cs => cs.map parent_rows_and_columns) (_children c4node) =
      Except.ok
        [(some (ParentTuple.fromIndices [4, 5, 6, 7, 0]),
          some (ParentTuple.fromIndices [0, 1, 2, 3])),
         (some (ParentTuple.fromIndices [0, 1, 2, 3]),
          some (ParentTuple.fromIndices [0, 4, 5, 6, 7]))] ∧
    Except.map childrenSortedByParentTuples (_children c4node) = Except.ok false ∧
    c4node.dec.typ = TYPE_TWO_SUM := by
  decide

/-- **C4, amended.**  Child enumeration returns the children in the
structural (child-handle index) order of the external decomposition
structure for *every* node kind — the generic `_children` performs no
sorting (its docstring is stale; the source's own doctest shows unsorted
output) — and a 3-sum node's two children are likewise returned in
structural left/right order. -/
theorem c4_children_order_amended :
    (∀ (st : NodeState) (cs : List ChildNode),
      _children st = Except.ok cs → cs.map ChildNode.dec = st.dec.children) ∧
    (∀ (st : NodeState) (k1 k2 : ChildNode),
      ThreeSum_children st = Except.ok (k1, k2) →
        st.dec.children = [k1.dec, k2.dec]) := by
  constructor
  · intro st cs h
    exact exceptMapList_children_dec st st.dec.children cs h
  · intro st k1 k2 h
    unfold ThreeSum_children at h
    cases hch : st.dec.children with
    | nil =>
      rw [hch] at h
      exact Except.noConfusion h
    | cons c1 rest =>
      cases rest with
      | nil =>
        rw [hch] at h
        exact Except.noConfusion h
      | cons c2 rest2 =>
        cases rest2 with
        | cons c3 r3 =>
          rw [hch] at h
          exact Except.noConfusion h
        | nil =>
          rw [hch] at h
          cases hrk : st.rowKeys with
          | none =>
            rw [hrk] at h
            have h2 : Except.ok
                ((⟨c1, none, none, some (st.root.getD st.id)⟩ : ChildNode),
                 (⟨c2, none, none, some (st.root.getD st.id)⟩ : ChildNode))
                = Except.ok (k1, k2) := h
            injection h2 with h3
            injection h3 with hA hB
            rw [← hA, ← hB]
          | some rk =>
            rw [hrk] at h
            cases hck : st.colKeys with
            | none =>
              rw [hck] at h
              have h2 : Except.ok
                  ((⟨c1, none, none, some (st.root.getD st.id)⟩ : ChildNode),
                   (⟨c2, none, none, some (st.root.getD st.id)⟩ : ChildNode))
                  = Except.ok (k1, k2) := h
              injection h2 with h3
              injection h3 with hA hB
              rw [← hA, ← hB]
            | some ck =>
              rw [hck] at h
              cases hcr : st.dec.concentratedRank with
              | true =>
                rw [hcr] at h
                simp only [if_true] at h
                obtain ⟨v1, _, h⟩ := exceptBind_ok h
                obtain ⟨v2, _, h⟩ := exceptBind_ok h
                obtain ⟨v3, _, h⟩ := exceptBind_ok h
                obtain ⟨v4, _, h⟩ := exceptBind_ok h
                obtain ⟨v5, _, h⟩ := exceptBind_ok h
                obtain ⟨v6, _, h⟩ := exceptBind_ok h
                obtain ⟨v7, _, h⟩ := exceptBind_ok h
                obtain ⟨v8, _, h⟩ := exceptBind_ok h
                have h2 := h
                injection h2 with h3
                injection h3 with hA hB
                rw [← hA, ← hB]
              | false =>
                rw [hcr] at h
                simp only [if_false] at h
                obtain ⟨v1, _, h⟩ := exceptBind_ok h
                obtain ⟨v2, _, h⟩ := exceptBind_ok h
                obtain ⟨v3, _, h⟩ := exceptBind_ok h
                obtain ⟨v4, _, h⟩ := exceptBind_ok h
                obtain ⟨v5, _, h⟩ := exceptBind_ok h
                obtain ⟨v6, _, h⟩ := exceptBind_ok h
                obtain ⟨v7, _, h⟩ := exceptBind_ok h
                obtain ⟨v8, _, h⟩ := exceptBind_ok h
                have h2 := h
                injection h2 with h3
                injection h3 with hA hB
                rw [← hA, ← hB]

/-- Witness for `c4_children_order_amended` at the concrete two-child
node. -/
theorem c4_children_order_amended_witness :
    [(⟨c4childA, none, none, some 0⟩ : ChildNode),
     (⟨c4childB, none, none, some 0⟩ : ChildNode)].map ChildNode.dec =
      c4node.dec.children :=
  c4_children_order_amended.1 c4node
    [⟨c4childA, none, none, some 0⟩, ⟨c4childB, none, none, some 0⟩] rfl

theorem ok_bind {α β : Type} (a : α) (f : α → Except PyErr β) :
    (Except.ok a >>= f) = f a := rfl

theorem pure_bindE {α β : Type} (a : α) (f : α → Except PyErr β) :
    ((pure a : Except PyErr α) >>= f) = f a := rfl

theorem pureE {α : Type} (a : α) : (pure a : Except PyErr α) = Except.ok a := rfl

/-! Concrete 3-sum instances used for C1 and C2. -/

/-- A 1×1 child matrix with single entry `1` at `(0, 0)`. -/
def c1exMat : ChrMat := ⟨1, 1, [0, 1], [0], [1]⟩

def c1exChild1 : Dec :=
  Dec.mk 1 1 0 (some c1exMat) (some [CMRElem.rowElem 0]) (some []) false []

def c1exChild2 : Dec :=
  Dec.mk 1 1 0 (some c1exMat) (some [CMRElem.rowElem 0]) (some []) false []

/-- A distributed-ranks (Wide-Wide) 3-sum node with row keys `(10,)` and
column keys `(20, 21)`. -/
def c1exNode : NodeState :=
  ⟨Dec.mk 2 2 3 none none none false [c1exChild1, c1exChild2],
   some [10], some [20, 21], 0, none⟩

/-- **C1, counterexample.**  The claim prescribes that in the Wide-Wide case
child 2 keeps all of its own column keys and has its first *row* key
replaced by the composed key `(+1, C[1], sign, R[0])`.  On this concrete
Wide-Wide node the code does the opposite: child 2's row keys are its own
simple keys — not the claimed composed key — and it is the first *column*
key that is replaced by the composed key. -/
theorem c1_claim_counterexample :
    Except.map (fun p => (p.2.rowKeys, p.2.colKeys)) (ThreeSum_children c1exNode) =
      Except.ok (some [ElementKey.mkSimple 10],
                 some [ElementKey.mkComposed 1 21 1 10]) ∧
    some [ElementKey.mkSimple 10] ≠ some [ElementKey.mkComposed 1 21 1 10] ∧
    (ElementKey.mkSimple 10).composition = false := by
  decide

/-- **C1, amended.**  For a Wide-Wide (distributed-ranks) 3-sum node with
row keys `R` and column keys `C` set: child 1 keeps all of its own row keys
and its last column key is replaced by the composed key
`(+1, C[ncols₁ - 1], sign, R[nrows₁ - 1])` where `sign` is child 1's own
matrix entry at its last-row/last-column position (`0` when structurally
absent); child 2 keeps all of its own *row* keys, and its first *column*
key is replaced by the composed key `(+1, C[1], sign, R[0])` where `sign`
is read from child **1**'s entry-value array at the flat position at which
child 2's matrix holds its `(0, 0)` entry (`0` when that entry is absent) —
not from child 2's own value array. -/
theorem c1_wide_wide_children_amended
    (st : NodeState) (c1 c2 : Dec) (R C : List Int) (m1 m2 : ChrMat)
    (rks1 base1 rks2 tailCols : List ElementKey) (ck rk c1k r0k : Int)
    (hch : st.dec.children = [c1, c2])
    (hR : st.rowKeys = some R) (hC : st.colKeys = some C)
    (hcr : st.dec.concentratedRank = false)
    (hm1 : c1.mat = some m1) (hm2 : c2.mat = some m2)
    (h1 : exceptMapList (fun i => _CMRelement_to_key (some R) (some C)
            ((c1.parentRows.getD []).getD i CMRElem.invalid))
          (List.range c1.numRows) = Except.ok rks1)
    (h2 : exceptMapList (fun i => _CMRelement_to_key (some R) (some C)
            ((c1.parentCols.getD []).getD i CMRElem.invalid))
          (List.range (c1.numColumns - 1)) = Except.ok base1)
    (h3 : C.get? (c1.numColumns - 1) = some ck)
    (h4 : R.get? (c1.numRows - 1) = some rk)
    (h5 : exceptMapList (fun i => _CMRelement_to_key (some R) (some C)
            ((c2.parentRows.getD []).getD i CMRElem.invalid))
          (List.range c2.numRows) = Except.ok rks2)
    (h6 : exceptMapList (fun i => _CMRelement_to_key (some R) (some C)
            ((c2.parentCols.getD []).getD i CMRElem.invalid))
          (List.range' 1 (c2.numColumns - 1)) = Except.ok tailCols)
    (h7 : C.get? 1 = some c1k)
    (h8 : R.get? 0 = some r0k) :
    ThreeSum_children st = Except.ok
      (⟨c1, some rks1,
        some (base1 ++ [ElementKey.mkComposed 1 ck
          (entryOrZero m1 (findEntryIdx m1 (c1.numRows - 1) (c1.numColumns - 1))) rk]),
        some (st.root.getD st.id)⟩,
       ⟨c2, some rks2,
        some (ElementKey.mkComposed 1 c1k (entryOrZero m1 (findEntryIdx m2 0 0)) r0k
          :: tailCols),
        some (st.root.getD st.id)⟩) := by
  simp only [ThreeSum_children, hch, hR, hC, hcr, hm1, hm2, Option.getD_some,
    Bool.false_eq_true, if_false, pyGet, h1, h2, h3, h4, h5, h6, h7, h8, ok_bind,
    pure_bindE, pureE]

/-- Witness for `c1_wide_wide_children_amended` at the concrete Wide-Wide
node: the sign in both composed keys evaluates to `1`. -/
theorem c1_wide_wide_children_amended_witness :
    ThreeSum_children c1exNode = Except.ok
      (⟨c1exChild1, some [ElementKey.mkSimple 10],
        some [ElementKey.mkComposed 1 20 1 10], some 0⟩,
       ⟨c1exChild2, some [ElementKey.mkSimple 10],
        some [ElementKey.mkComposed 1 21 1 10], some 0⟩) :=
  c1_wide_wide_children_amended c1exNode c1exChild1 c1exChild2 [10] [20, 21]
    c1exMat c1exMat [ElementKey.mkSimple 10] [] [ElementKey.mkSimple 10] []
    20 10 21 10 rfl rfl rfl rfl rfl rfl rfl rfl rfl rfl rfl rfl rfl rfl

/-- Child-1 matrix for the Mixed-Mixed instance: a 2×1 matrix with entries
`-1` at `(0, 0)` and `(1, 0)`, so its flat `entryValues` array is
`[-1, -1]`. -/
def c2exMat1 : ChrMat := ⟨2, 1, [0, 1, 2], [0, 0], [-1, -1]⟩

/-- Child-2 matrix for the Mixed-Mixed instance: a 1×2 matrix with entries
`1` at `(0, 0)` and `(0, 1)`. -/
def c2exMat2 : ChrMat := ⟨1, 2, [0, 2], [0, 1], [1, 1]⟩

def c2exChild1 : Dec :=
  Dec.mk 2 1 0 (some c2exMat1)
    (some [CMRElem.rowElem 0, CMRElem.rowElem 1]) (some []) false []

def c2exChild2 : Dec :=
  Dec.mk 1 2 0 (some c2exMat2)
    (some []) (some [CMRElem.colElem 0, CMRElem.colElem 1]) false []

/-- A concentrated-rank (Mixed-Mixed) 3-sum node with row keys `(10, 11)`
and column keys `(20, 21)`. -/
def c2exNode : NodeState :=
  ⟨Dec.mk 3 3 3 none none none true [c2exChild1, c2exChild2],
   some [10, 11], some [20, 21], 0, none⟩

/-- **C2, code bug.**  The claim (and §4.3 of the spec) say child 2's first
row key pairs the entries at `(0, 0)` and `(0, 1)` of child **2**'s own
matrix with `C[0]`, `C[1]`.  The source instead searches `mat2` for those
entry positions but reads the values from `mat1.entryValues` (child 1's
value array) at the found flat indices.  Here child 2's own entries are
`1, 1`, yet the composed key is built with signs `-1, -1` — the values at
flat indices `0, 1` of child 1's array — so the produced key differs from
the `(+1, C[0], +1, C[1])` key the claim prescribes.  (Child 1's branch,
which reads its own matrix, matches the claim.) -/
theorem c2_mixed_epsilon_code_bug :
    Except.map (fun p => (p.1.rowKeys, p.1.colKeys, p.2.rowKeys, p.2.colKeys))
        (ThreeSum_children c2exNode) =
      Except.ok (some [ElementKey.mkSimple 10, ElementKey.mkSimple 11],
                 some [ElementKey.mkComposed (-1) 10 (-1) 11],
                 some [ElementKey.mkComposed (-1) 20 (-1) 21],
                 some [ElementKey.mkSimple 20, ElementKey.mkSimple 21]) ∧
    entryOrZero c2exMat2 (findEntryIdx c2exMat2 0 0) = 1 ∧
    entryOrZero c2exMat2 (findEntryIdx c2exMat2 0 1) = 1 ∧
    entryOrZero c2exMat1 (findEntryIdx c2exMat2 0 0) = -1 ∧
    entryOrZero c2exMat1 (findEntryIdx c2exMat2 0 1) = -1 ∧
    ElementKey.mkComposed (-1) 20 (-1) 21 ≠ ElementKey.mkComposed 1 20 1 21 := by
  decide

/-- **C6, code bug.**  The permutation normal form computed by
`_palp_PM_max` is neither idempotent nor invariant under row/column
permutation.  Root cause: the loop arranging row 0 reads the *unpermuted*
entries (`index_of_max(PM[0, i] for i in range(j, n_v))`) while recording
transpositions into the column permutation, so after the first swap the
selection scans the wrong positions — for `[[1, 3, 2]]` it yields
`[[3, 1, 2]]` instead of the sorted `[[3, 2, 1]]`.  Applying the
computation again gives `[[3, 2, 1]] ≠ [[3, 1, 2]]`, refuting idempotence;
and `[[3, 1, 2]]` is itself a column-permuted copy of `[[1, 3, 2]]` (last
conjunct, using the algorithm's own permutation application) whose normal
form differs, refuting permutation invariance.  This contradicts the
method's own docstring, which equates its result with
`permutation_normal_form` (the lexicographic maximum). -/
theorem c6_normal_form_code_bug :
    palpNormalForm [[1, 3, 2]] = [[3, 1, 2]] ∧
    palpNormalForm [[3, 1, 2]] = [[3, 2, 1]] ∧
    palpNormalForm (palpNormalForm [[1, 3, 2]]) ≠ palpNormalForm [[1, 3, 2]] ∧
    palpNormalForm [[3, 1, 2]] ≠ palpNormalForm [[1, 3, 2]] ∧
    withPermutedRowsAndColumns [[1, 3, 2]] (identityPerm 1)
      (transposeLeft (identityPerm 3) 1 2) = [[3, 1, 2]] := by
  decide

end SageCMR
